import Mathlib

/-!
Shallow embedding of the session broker / TCP forwarding gateway of this
repository (`src/gateway_manager.py` and the `quick_join` route of
`src/connection_manager.py`), together with proofs settling the spec claims.

Modelling conventions:
* Python `dict` → association list `List (κ × ν)` with first-match lookup and
  replace-in-place / append-on-new-key update (Python 3.7+ dict semantics).
* Python `set` of ports → `Finset Nat`; `set.pop()` removes an arbitrary
  element, determinised here as the minimum (no claim depends on which
  element is popped).
* Wall-clock timestamps (`datetime.now()`, iso strings) → `Nat`, passed as an
  explicit `now` parameter to each operation that reads the clock.
* `secrets.token_hex(length // 2).upper()[:length]` → an explicit list of
  draws (the oracle of random strings the generator would produce, in order).
* Thread objects created by `threading.Thread(...).start()` → fresh ids from a
  counter; the `spawned` log records every thread ever started with its
  listening port, and `forwardingThreads` mirrors the Python dict
  `self.forwarding_threads` (port ↦ latest thread id).
-/

namespace Gateway

/-- Lookup in an association list modelling a Python dict: first entry whose
key matches. -/
def dictGet {κ ν : Type} [DecidableEq κ] (l : List (κ × ν)) (k : κ) : Option ν :=
  (l.find? (fun p => p.1 = k)).map (·.2)

/-- Update in an association list modelling a Python dict: `d[k] = v` replaces
the value in place when the key exists and appends otherwise. -/
def dictSet {κ ν : Type} [DecidableEq κ] (l : List (κ × ν)) (k : κ) (v : ν) :
    List (κ × ν) :=
  if (l.find? (fun p => p.1 = k)).isSome then
    l.map (fun p => if p.1 = k then (k, v) else p)
  else
    l ++ [(k, v)]

/-- The statistics dict stored per connection (`create_connection`). -/
structure Stats where
  bytes_forwarded : Nat
  connections : Nat
  last_activity : Nat
  deriving DecidableEq, Repr

/-- One connection entry, the dict built by
`GatewayManager.create_connection`.  `status` is the literal Python string
(the source only ever writes "pending", "active" and "revoked"). -/
structure Conn where
  code : String
  port : Nat
  status : String
  created_at : Nat
  expires_at : Nat
  user_info : String
  stats : Stats
  approved_at : Option Nat := none
  revoked_at : Option Nat := none
  deriving DecidableEq, Repr

/-- The slice of the gateway configuration the modelled code reads. -/
structure Config where
  connection_timeout : Nat
  require_approval : Bool
  minecraft_port : Nat
  deriving DecidableEq, Repr

/-- The mutable state of a `GatewayManager` instance. -/
structure GwState where
  connections : List (String × Conn)
  connection_ports : List (Nat × String)
  available_ports : Finset Nat
  used_ports : Finset Nat
  config : Config
  forwarding_threads : List (Nat × Nat)
  spawned : List (Nat × Nat)
  next_thread : Nat
  deriving DecidableEq

/-- `GatewayManager.generate_connection_code`: loop drawing random codes until
one is not a key of `connections`.  `draws` is the stream of strings
`secrets.token_hex(code_length // 2).upper()[:code_length]` would yield;
`some c` means the loop returns `c`, `none` means it has not returned within
`draws.length` iterations (the Python loop is unbounded and simply keeps
spinning). -/
def generate_connection_code (draws : List String) (conns : List (String × Conn)) :
    Option String :=
  draws.find? (fun c => (dictGet conns c).isNone)

/-- `GatewayManager.allocate_port`: fail on an empty free set, else pop a port
from `available_ports` into `used_ports`. -/
def allocate_port (st : GwState) : Option Nat × GwState :=
  match st.available_ports.min with
  | none => (none, st)
  | some p =>
      (some p,
        { st with
            available_ports := st.available_ports.erase p
            used_ports := insert p st.used_ports })

/-- `GatewayManager.release_port`: move the port back to the free set only when
it is currently in `used_ports`; otherwise silently do nothing. -/
def release_port (port : Nat) (st : GwState) : GwState :=
  if port ∈ st.used_ports then
    { st with
        used_ports := st.used_ports.erase port
        available_ports := insert port st.available_ports }
  else st

/-- `GatewayManager.create_connection`.  The guard `if not allocated_port` is
Python truthiness: both `None` and port `0` take the failure return. -/
def create_connection (draws : List String) (user_info : String) (now : Nat)
    (st : GwState) : Option Conn × GwState :=
  match generate_connection_code draws st.connections with
  | none => (none, st)
  | some connection_code =>
    match allocate_port st with
    | (none, st1) => (none, st1)
    | (some allocated_port, st1) =>
      if allocated_port = 0 then (none, st1)
      else
        let connection : Conn :=
          { code := connection_code
            port := allocated_port
            status := "pending"
            created_at := now
            expires_at := now + st.config.connection_timeout
            user_info := user_info
            stats := { bytes_forwarded := 0, connections := 0, last_activity := now } }
        (some connection,
          { st1 with
              connections := dictSet st1.connections connection_code connection
              connection_ports :=
                dictSet st1.connection_ports allocated_port connection_code })

/-- `GatewayManager.approve_connection`: if the code is a key, set status
`"active"` and `approved_at` (no check of the current status) and return
`True`; otherwise return `False`. -/
def approve_connection (connection_code : String) (now : Nat) (st : GwState) :
    Bool × GwState :=
  match dictGet st.connections connection_code with
  | none => (false, st)
  | some conn =>
      (true,
        { st with
            connections :=
              dictSet st.connections connection_code
                { conn with status := "active", approved_at := some now } })

/-- `GatewayManager.revoke_connection`: if the code is a key, release the
connection's port, set status `"revoked"` and `revoked_at`, and return `True`
(no check of the current status; the forwarding-thread branch is a literal
`pass`); otherwise return `False`. -/
def revoke_connection (connection_code : String) (now : Nat) (st : GwState) :
    Bool × GwState :=
  match dictGet st.connections connection_code with
  | none => (false, st)
  | some conn =>
      let st1 := release_port conn.port st
      (true,
        { st1 with
            connections :=
              dictSet st1.connections connection_code
                { conn with status := "revoked", revoked_at := some now } })

/-- The predicate of `cleanup_expired_connections`:
`now > expires_at and status in ["pending", "active"]`. -/
def is_expired (now : Nat) (c : Conn) : Bool :=
  decide (c.expires_at < now) && (c.status == "pending" || c.status == "active")

/-- `GatewayManager.cleanup_expired_connections`: collect the codes of expired
pending/active connections, then revoke each. -/
def cleanup_expired_connections (now : Nat) (st : GwState) : GwState :=
  let expired_codes :=
    (st.connections.filter (fun p => is_expired now p.2)).map Prod.fst
  expired_codes.foldl (fun s code => (revoke_connection code now s).2) st

/-- `GatewayManager.start_port_forwarding`: unknown code or non-`"active"`
status returns `False`; otherwise a fresh forwarding thread is started (always
— there is no check whether one already runs) and recorded in
`forwarding_threads` under the connection's port. -/
def start_port_forwarding (connection_code : String) (st : GwState) :
    Bool × GwState :=
  match dictGet st.connections connection_code with
  | none => (false, st)
  | some conn =>
      if conn.status ≠ "active" then (false, st)
      else
        (true,
          { st with
              forwarding_threads :=
                dictSet st.forwarding_threads conn.port st.next_thread
              spawned := st.spawned ++ [(st.next_thread, conn.port)]
              next_thread := st.next_thread + 1 })

/-- `GatewayManager.get_connection_url`: endpoint data, only for an `"active"`
connection. -/
def get_connection_url (connection_code : String) (st : GwState) :
    Option (String × Nat) :=
  match dictGet st.connections connection_code with
  | none => none
  | some conn => if conn.status = "active" then some ("localhost", conn.port) else none

/-- The `quick_join` route of `src/connection_manager.py`: save
`require_approval`, force it to `False`, create + approve + start forwarding,
and restore the flag in the `finally` block on both the success and the
failure return. -/
def quick_join (draws : List String) (now : Nat) (st : GwState) :
    Option (Conn × Option (String × Nat)) × GwState :=
  let original_require_approval := st.config.require_approval
  let st0 := { st with config := { st.config with require_approval := false } }
  match create_connection draws "Quick Join User" now st0 with
  | (none, st1) =>
      (none, { st1 with config := { st1.config with require_approval := original_require_approval } })
  | (some connection, st1) =>
      let st2 := (approve_connection connection.code now st1).2
      let st3 := (start_port_forwarding connection.code st2).2
      let url := get_connection_url connection.code st3
      (some (connection, url),
        { st3 with config := { st3.config with require_approval := original_require_approval } })

/-- The broker operations a collaborator can invoke, each carrying the oracle
inputs (random draws, wall-clock time) it consumes. -/
inductive Op : Type
  | create (draws : List String) (user_info : String) (now : Nat)
  | approve (code : String) (now : Nat)
  | revoke (code : String) (now : Nat)
  | cleanup (now : Nat)
  | startFwd (code : String)
  deriving DecidableEq, Repr

/-- One operation, result discarded. -/
def step (st : GwState) : Op → GwState
  | .create draws ui now => (create_connection draws ui now st).2
  | .approve code now => (approve_connection code now st).2
  | .revoke code now => (revoke_connection code now st).2
  | .cleanup now => cleanup_expired_connections now st
  | .startFwd code => (start_port_forwarding code st).2

/-- Run a sequence of operations. -/
def run (st : GwState) (ops : List Op) : GwState :=
  ops.foldl step st

/-- The state `GatewayManager.__init__` builds: no connections, free pool
`range(30000, 40000)`, no used ports. -/
def initState (cfg : Config) : GwState :=
  { connections := []
    connection_ports := []
    available_ports := Finset.Ico 30000 40000
    used_ports := ∅
    config := cfg
    forwarding_threads := []
    spawned := []
    next_thread := 0 }

/-! ### Association-list (Python dict) lemmas -/

theorem dictGet_eq_none_iff {κ ν : Type} [DecidableEq κ] {l : List (κ × ν)} {k : κ} :
    dictGet l k = none ↔ ∀ x ∈ l, x.1 ≠ k := by
  simp [dictGet, List.find?_eq_none]

theorem dictGet_some_mem {κ ν : Type} [DecidableEq κ] {l : List (κ × ν)} {k : κ} {v : ν}
    (h : dictGet l k = some v) : (k, v) ∈ l := by
  simp only [dictGet, Option.map_eq_some'] at h
  obtain ⟨x, hx, hv⟩ := h
  have hk := List.find?_some hx
  have hm := List.mem_of_find?_eq_some hx
  simp only [decide_eq_true_eq] at hk
  have : x = (k, v) := by
    cases x
    simp_all
  rw [this] at hm
  exact hm

theorem dictGet_replace_self {κ ν : Type} [DecidableEq κ] {l : List (κ × ν)} {k : κ} {v : ν}
    (h : ∃ x ∈ l, x.1 = k) :
    dictGet (l.map (fun p => if p.1 = k then (k, v) else p)) k = some v := by
  induction l with
  | nil => simp at h
  | cons a as ih =>
    by_cases ha : a.1 = k
    · simp [dictGet, ha]
    · have h' : ∃ x ∈ as, x.1 = k := by
        obtain ⟨x, hx, hk⟩ := h
        rcases List.mem_cons.1 hx with he | hm
        · exact absurd (he ▸ hk) ha
        · exact ⟨x, hm, hk⟩
      simpa [dictGet, ha] using ih h'

theorem dictGet_replace_ne {κ ν : Type} [DecidableEq κ] (l : List (κ × ν)) (k k' : κ) (v : ν)
    (h : k' ≠ k) :
    dictGet (l.map (fun p => if p.1 = k then (k, v) else p)) k' = dictGet l k' := by
  induction l with
  | nil => simp [dictGet]
  | cons a as ih =>
    rw [List.map_cons]
    by_cases ha : a.1 = k
    · rw [if_pos ha]
      unfold dictGet
      rw [List.find?_cons_of_neg _ (by simp [Ne.symm h]),
        List.find?_cons_of_neg _ (by simp [ha, Ne.symm h])]
      exact ih
    · rw [if_neg ha]
      by_cases hb : a.1 = k'
      · unfold dictGet
        rw [List.find?_cons_of_pos _ (by simpa using hb),
          List.find?_cons_of_pos _ (by simpa using hb)]
      · unfold dictGet
        rw [List.find?_cons_of_neg _ (by simpa using hb),
          List.find?_cons_of_neg _ (by simpa using hb)]
        exact ih

theorem dictGet_dictSet_self {κ ν : Type} [DecidableEq κ] (l : List (κ × ν)) (k : κ) (v : ν) :
    dictGet (dictSet l k v) k = some v := by
  unfold dictSet
  split
  · rename_i hs
    rw [List.find?_isSome] at hs
    obtain ⟨x, hx, hk⟩ := hs
    simp only [decide_eq_true_eq] at hk
    exact dictGet_replace_self ⟨x, hx, hk⟩
  · rename_i hn
    rw [Option.not_isSome_iff_eq_none, List.find?_eq_none] at hn
    unfold dictGet
    rw [List.find?_append]
    have hl : List.find? (fun p => decide (p.1 = k)) l = none := by
      rw [List.find?_eq_none]
      exact hn
    simp [hl]

theorem dictGet_dictSet_ne {κ ν : Type} [DecidableEq κ] (l : List (κ × ν)) (k k' : κ) (v : ν)
    (h : k' ≠ k) : dictGet (dictSet l k v) k' = dictGet l k' := by
  unfold dictSet
  split
  · exact dictGet_replace_ne l k k' v h
  · unfold dictGet
    rw [List.find?_append]
    have hs : List.find? (fun p => decide (p.1 = k')) [(k, v)] = none := by
      simp [Ne.symm h]
    simp [hs]

theorem mem_dictSet {κ ν : Type} [DecidableEq κ] {l : List (κ × ν)} {k : κ} {v : ν} {x : κ × ν}
    (h : x ∈ dictSet l k v) : x = (k, v) ∨ (x ∈ l ∧ x.1 ≠ k) := by
  unfold dictSet at h
  split at h
  · rw [List.mem_map] at h
    obtain ⟨p, hp, he⟩ := h
    by_cases hk : p.1 = k
    · left
      rw [← he]
      simp [hk]
    · right
      rw [← he]
      simp [hk]
      exact hp
  · rw [List.mem_append] at h
    cases h with
    | inl hl =>
      by_cases hk : x.1 = k
      · rename_i hn
        rw [Option.not_isSome_iff_eq_none, List.find?_eq_none] at hn
        have := hn x hl
        simp [hk] at this
      · right
        exact ⟨hl, hk⟩
    | inr hr =>
      left
      simpa using hr

theorem keys_dictSet_of_isSome {κ ν : Type} [DecidableEq κ] {l : List (κ × ν)} {k : κ} {v : ν}
    (h : (l.find? (fun p => p.1 = k)).isSome) :
    (dictSet l k v).map Prod.fst = l.map Prod.fst := by
  unfold dictSet
  rw [if_pos h, List.map_map]
  apply List.map_congr_left
  intro p _
  by_cases hk : p.1 = k
  · simp [hk]
  · simp [hk]

theorem keys_dictSet_of_none {κ ν : Type} [DecidableEq κ] {l : List (κ × ν)} {k : κ} {v : ν}
    (h : l.find? (fun p => p.1 = k) = none) :
    dictSet l k v = l ++ [(k, v)] := by
  unfold dictSet
  rw [if_neg]
  simp [h]

theorem dictGet_of_mem_nodup {κ ν : Type} [DecidableEq κ] {l : List (κ × ν)} {k : κ} {v : ν}
    (hnd : (l.map Prod.fst).Nodup) (hm : (k, v) ∈ l) : dictGet l k = some v := by
  induction l with
  | nil => simp at hm
  | cons a as ih =>
    rw [List.map_cons, List.nodup_cons] at hnd
    rcases List.mem_cons.1 hm with he | hmem
    · rw [← he]
      simp [dictGet]
    · have ha : a.1 ≠ k := by
        intro hk
        exact hnd.1 (by rw [hk]; exact List.mem_map.2 ⟨(k, v), hmem, rfl⟩)
      simpa [dictGet, ha] using ih hnd.2 hmem

theorem nodup_keys_dictSet {κ ν : Type} [DecidableEq κ] {l : List (κ × ν)} {k : κ} {v : ν}
    (hnd : (l.map Prod.fst).Nodup) : ((dictSet l k v).map Prod.fst).Nodup := by
  unfold dictSet
  split
  · rename_i hs
    rw [show (l.map (fun p => if p.1 = k then (k, v) else p)).map Prod.fst = l.map Prod.fst by
      rw [List.map_map]
      apply List.map_congr_left
      intro p _
      by_cases hk : p.1 = k
      · simp [hk]
      · simp [hk]]
    exact hnd
  · rename_i hn
    rw [Option.not_isSome_iff_eq_none, List.find?_eq_none] at hn
    rw [List.map_append]
    simp only [List.map_cons, List.map_nil]
    rw [List.nodup_append]
    refine ⟨hnd, List.nodup_singleton k, ?_⟩
    intro a ha
    simp only [List.mem_map] at ha
    obtain ⟨p, hp, he⟩ := ha
    have := hn p hp
    simp only [decide_eq_true_eq] at this
    simp [← he, this]

/-! ### Non-terminal sessions and the port-uniqueness invariant -/

/-- A session is non-terminal when its status string is `"pending"` or
`"active"` (the source's only terminal status is `"revoked"`). -/
def nonterminal (c : Conn) : Prop :=
  c.status = "pending" ∨ c.status = "active"

instance (c : Conn) : Decidable (nonterminal c) := by
  unfold nonterminal
  infer_instance

/-- No two distinct (by code) non-terminal sessions hold the same port. -/
def PortsDistinct (st : GwState) : Prop :=
  ∀ x ∈ st.connections, ∀ y ∈ st.connections,
    x.1 ≠ y.1 → nonterminal x.2 → nonterminal y.2 → x.2.port ≠ y.2.port

instance (st : GwState) : Decidable (PortsDistinct st) := by
  unfold PortsDistinct
  infer_instance

/-- The inductive invariant of a `GatewayManager` state: distinct connection
keys, disjoint port pools, every non-terminal session's port accounted in
`used_ports`, and port uniqueness among non-terminal sessions. -/
structure Inv (st : GwState) : Prop where
  nodup_keys : (st.connections.map Prod.fst).Nodup
  pools_disjoint : ∀ p ∈ st.available_ports, p ∉ st.used_ports
  port_used : ∀ x ∈ st.connections, nonterminal x.2 → x.2.port ∈ st.used_ports
  ports_distinct : PortsDistinct st

theorem is_expired_nonterminal {now : Nat} {c : Conn} (h : is_expired now c = true) :
    nonterminal c := by
  unfold is_expired at h
  unfold nonterminal
  simp only [Bool.and_eq_true, Bool.or_eq_true, beq_iff_eq, decide_eq_true_eq] at h
  exact h.2

@[simp] theorem release_port_connections (p : Nat) (st : GwState) :
    (release_port p st).connections = st.connections := by
  unfold release_port
  split <;> rfl

@[simp] theorem release_port_config (p : Nat) (st : GwState) :
    (release_port p st).config = st.config := by
  unfold release_port
  split <;> rfl

@[simp] theorem release_port_forwarding (p : Nat) (st : GwState) :
    (release_port p st).forwarding_threads = st.forwarding_threads := by
  unfold release_port
  split <;> rfl

theorem release_port_mem_available {p q : Nat} {st : GwState}
    (h : q ∈ st.available_ports) : q ∈ (release_port p st).available_ports := by
  unfold release_port
  split
  · exact Finset.mem_insert_of_mem h
  · exact h

theorem allocate_port_none {st st' : GwState} (h : allocate_port st = (none, st')) :
    st' = st := by
  unfold allocate_port at h
  split at h
  · have := congrArg Prod.snd h
    exact this.symm
  · have := congrArg Prod.fst h
    simp at this

theorem allocate_port_some {st st' : GwState} {p : Nat} (h : allocate_port st = (some p, st')) :
    p ∈ st.available_ports ∧
      st' = { st with
                available_ports := st.available_ports.erase p
                used_ports := insert p st.used_ports } := by
  unfold allocate_port at h
  split at h
  · have := congrArg Prod.fst h
    simp at this
  · rename_i q hm
    have hq : q = p := by
      have := congrArg Prod.fst h
      simpa using this
    subst hq
    refine ⟨Finset.mem_of_min hm, ?_⟩
    have := congrArg Prod.snd h
    simpa using this.symm

theorem mid_inv {st : GwState} {p : Nat} (h : Inv st) (_hp : p ∈ st.available_ports) :
    Inv { st with
            available_ports := st.available_ports.erase p
            used_ports := insert p st.used_ports } := by
  constructor
  · exact h.nodup_keys
  · intro q hq hq2
    rw [Finset.mem_erase] at hq
    rcases Finset.mem_insert.1 hq2 with he | hm
    · exact hq.1 he
    · exact h.pools_disjoint q hq.2 hm
  · intro x hx hnt
    exact Finset.mem_insert_of_mem (h.port_used x hx hnt)
  · exact h.ports_distinct

theorem create_inv (draws : List String) (ui : String) (now : Nat) (st : GwState)
    (h : Inv st) : Inv (create_connection draws ui now st).2 := by
  unfold create_connection
  split
  · exact h
  · rename_i code hg
    split
    · rename_i st1 ha
      rw [allocate_port_none ha]
      exact h
    · rename_i p st1 ha
      obtain ⟨hp, hst1⟩ := allocate_port_some ha
      subst hst1
      split
      · exact mid_inv h hp
      · have minv := mid_inv h hp
        constructor
        · exact nodup_keys_dictSet minv.nodup_keys
        · exact minv.pools_disjoint
        · intro x hx hnt
          rcases mem_dictSet hx with he | ⟨hm, _⟩
          · rw [he]
            exact Finset.mem_insert_self p st.used_ports
          · exact minv.port_used x hm hnt
        · intro x hx y hy hne hntx hnty
          rcases mem_dictSet hx with hex | ⟨hmx, hnex⟩ <;>
            rcases mem_dictSet hy with hey | ⟨hmy, hney⟩
          · rw [hex, hey] at hne
            exact absurd rfl hne
          · rw [hex]
            intro heq
            have hyused : y.2.port ∈ st.used_ports := h.port_used y hmy hnty
            rw [← heq] at hyused
            exact h.pools_disjoint p hp hyused
          · rw [hey]
            intro heq
            have hxused : x.2.port ∈ st.used_ports := h.port_used x hmx hntx
            rw [heq] at hxused
            exact h.pools_disjoint p hp hxused
          · exact h.ports_distinct x hmx y hmy hne hntx hnty

theorem approve_inv (code : String) (now : Nat) (st : GwState) (h : Inv st)
    (hg : ∀ c, dictGet st.connections code = some c → nonterminal c) :
    Inv (approve_connection code now st).2 := by
  unfold approve_connection
  split
  · exact h
  · rename_i conn hd
    have hnt := hg conn hd
    have hmem := dictGet_some_mem hd
    constructor
    · exact nodup_keys_dictSet h.nodup_keys
    · exact h.pools_disjoint
    · intro x hx hntx
      rcases mem_dictSet hx with he | ⟨hm, _⟩
      · rw [he]
        exact h.port_used (code, conn) hmem hnt
      · exact h.port_used x hm hntx
    · intro x hx y hy hne hntx hnty
      rcases mem_dictSet hx with hex | ⟨hmx, hnex⟩ <;>
        rcases mem_dictSet hy with hey | ⟨hmy, hney⟩
      · rw [hex, hey] at hne
        exact absurd rfl hne
      · rw [hex] at hne ⊢
        exact h.ports_distinct (code, conn) hmem y hmy hne hnt hnty
      · rw [hey] at hne ⊢
        exact h.ports_distinct x hmx (code, conn) hmem hne hntx hnt
      · exact h.ports_distinct x hmx y hmy hne hntx hnty

theorem not_nonterminal_revoked (c : Conn) (now : Nat) :
    ¬ nonterminal { c with status := "revoked", revoked_at := some now } := by
  intro hc
  rcases hc with hc | hc <;> simp at hc

theorem revoke_inv (code : String) (now : Nat) (st : GwState) (h : Inv st)
    (hg : ∀ c, dictGet st.connections code = some c → nonterminal c) :
    Inv (revoke_connection code now st).2 := by
  unfold revoke_connection
  split
  · exact h
  · rename_i conn hd
    have hnt := hg conn hd
    have hmem := dictGet_some_mem hd
    have hused : conn.port ∈ st.used_ports := h.port_used (code, conn) hmem hnt
    have hrel : release_port conn.port st =
        { st with
            used_ports := st.used_ports.erase conn.port
            available_ports := insert conn.port st.available_ports } := by
      unfold release_port
      rw [if_pos hused]
    rw [hrel]
    constructor
    · exact nodup_keys_dictSet h.nodup_keys
    · intro q hq hq2
      rcases Finset.mem_insert.1 hq with he | hm
      · rw [he] at hq2
        exact Finset.not_mem_erase conn.port st.used_ports hq2
      · exact h.pools_disjoint q hm (Finset.mem_of_mem_erase hq2)
    · intro x hx hntx
      rcases mem_dictSet hx with he | ⟨hm, hne⟩
      · rw [he] at hntx
        exact absurd hntx (not_nonterminal_revoked conn now)
      · rw [Finset.mem_erase]
        refine ⟨?_, h.port_used x hm hntx⟩
        exact h.ports_distinct x hm (code, conn) hmem hne hntx hnt
    · intro x hx y hy hne hntx hnty
      rcases mem_dictSet hx with hex | ⟨hmx, hnex⟩
      · rw [hex] at hntx
        exact absurd hntx (not_nonterminal_revoked conn now)
      · rcases mem_dictSet hy with hey | ⟨hmy, hney⟩
        · rw [hey] at hnty
          exact absurd hnty (not_nonterminal_revoked conn now)
        · exact h.ports_distinct x hmx y hmy hne hntx hnty

/-! ### The reaper: `cleanup_expired_connections` as a fold of revokes -/

/-- The fold at the heart of `cleanup_expired_connections`. -/
def revokeAll (codes : List String) (now : Nat) (st : GwState) : GwState :=
  codes.foldl (fun s code => (revoke_connection code now s).2) st

theorem cleanup_eq_revokeAll (now : Nat) (st : GwState) :
    cleanup_expired_connections now st =
      revokeAll ((st.connections.filter (fun p => is_expired now p.2)).map Prod.fst) now st :=
  rfl

theorem revokeAll_cons (b : String) (bs : List String) (now : Nat) (st : GwState) :
    revokeAll (b :: bs) now st = revokeAll bs now (revoke_connection b now st).2 :=
  rfl

theorem revoke_dictGet_ne {a code : String} {now : Nat} {st : GwState} (h : a ≠ code) :
    dictGet ((revoke_connection code now st).2).connections a = dictGet st.connections a := by
  unfold revoke_connection
  split
  · rfl
  · rename_i conn hd
    simp only [release_port_connections]
    exact dictGet_dictSet_ne st.connections code a _ h

theorem revoke_dictGet_self {code : String} {now : Nat} {st : GwState} {conn : Conn}
    (hd : dictGet st.connections code = some conn) :
    dictGet ((revoke_connection code now st).2).connections code =
      some { conn with status := "revoked", revoked_at := some now } := by
  unfold revoke_connection
  rw [hd]
  simp only [release_port_connections]
  exact dictGet_dictSet_self st.connections code _

theorem revoke_available_mono {p : Nat} {code : String} {now : Nat} {st : GwState}
    (h : p ∈ st.available_ports) :
    p ∈ ((revoke_connection code now st).2).available_ports := by
  unfold revoke_connection
  split
  · exact h
  · exact release_port_mem_available h

theorem revoke_port_released {code : String} {now : Nat} {st : GwState} {conn : Conn}
    (hd : dictGet st.connections code = some conn) (hu : conn.port ∈ st.used_ports) :
    conn.port ∈ ((revoke_connection code now st).2).available_ports := by
  unfold revoke_connection
  rw [hd]
  simp only []
  unfold release_port
  rw [if_pos hu]
  exact Finset.mem_insert_self conn.port st.available_ports

theorem revoke_forwarding (code : String) (now : Nat) (st : GwState) :
    ((revoke_connection code now st).2).forwarding_threads = st.forwarding_threads := by
  unfold revoke_connection
  split
  · rfl
  · simp only [release_port_forwarding]

theorem revokeAll_forwarding (codes : List String) (now : Nat) (st : GwState) :
    (revokeAll codes now st).forwarding_threads = st.forwarding_threads := by
  induction codes generalizing st with
  | nil => rfl
  | cons b bs ih =>
    rw [revokeAll_cons]
    rw [show (revokeAll bs now (revoke_connection b now st).2).forwarding_threads =
      ((revoke_connection b now st).2).forwarding_threads from ih _]
    exact revoke_forwarding b now st

theorem revokeAll_available_mono {p : Nat} (codes : List String) (now : Nat) (st : GwState)
    (h : p ∈ st.available_ports) : p ∈ (revokeAll codes now st).available_ports := by
  induction codes generalizing st with
  | nil => exact h
  | cons b bs ih =>
    rw [revokeAll_cons]
    exact ih _ (revoke_available_mono h)

theorem revokeAll_dictGet_not_mem {a : String} (codes : List String) (now : Nat) (st : GwState)
    (h : a ∉ codes) :
    dictGet (revokeAll codes now st).connections a = dictGet st.connections a := by
  induction codes generalizing st with
  | nil => rfl
  | cons b bs ih =>
    rw [revokeAll_cons]
    have hb : a ≠ b := fun he => h (he ▸ List.mem_cons_self b bs)
    have hbs : a ∉ bs := fun hm => h (List.mem_cons_of_mem b hm)
    rw [show dictGet (revokeAll bs now (revoke_connection b now st).2).connections a =
      dictGet ((revoke_connection b now st).2).connections a from ih _ hbs]
    exact revoke_dictGet_ne hb

theorem revokeAll_inv (codes : List String) (now : Nat) (st : GwState) (h : Inv st)
    (hnd : codes.Nodup)
    (hg : ∀ c ∈ codes, ∀ conn, dictGet st.connections c = some conn → nonterminal conn) :
    Inv (revokeAll codes now st) := by
  induction codes generalizing st with
  | nil => exact h
  | cons b bs ih =>
    rw [revokeAll_cons]
    rw [List.nodup_cons] at hnd
    apply ih _ (revoke_inv b now st h (hg b (List.mem_cons_self b bs))) hnd.2
    intro c hc conn hdc
    have hcb : c ≠ b := fun he => hnd.1 (he ▸ hc)
    rw [revoke_dictGet_ne hcb] at hdc
    exact hg c (List.mem_cons_of_mem b hc) conn hdc

theorem revokeAll_spec (codes : List String) (now : Nat) (st : GwState) (h : Inv st)
    (hnd : codes.Nodup)
    (hg : ∀ c ∈ codes, ∀ conn, dictGet st.connections c = some conn → nonterminal conn) :
    ∀ a ∈ codes, ∀ conn, dictGet st.connections a = some conn →
      dictGet (revokeAll codes now st).connections a =
        some { conn with status := "revoked", revoked_at := some now } ∧
      conn.port ∈ (revokeAll codes now st).available_ports := by
  induction codes generalizing st with
  | nil => intro a ha; exact absurd ha (List.not_mem_nil a)
  | cons b bs ih =>
    rw [List.nodup_cons] at hnd
    intro a ha conn hda
    rw [revokeAll_cons]
    rcases List.mem_cons.1 ha with hab | hmem
    · subst hab
      constructor
      · rw [revokeAll_dictGet_not_mem bs now _ hnd.1]
        exact revoke_dictGet_self hda
      · apply revokeAll_available_mono
        apply revoke_port_released hda
        exact h.port_used (a, conn) (dictGet_some_mem hda)
          (hg a (List.mem_cons_self a bs) conn hda)
    · have hab : a ≠ b := fun he => hnd.1 (he ▸ hmem)
      have hinv' := revoke_inv b now st h (hg b (List.mem_cons_self b bs))
      have hg' : ∀ c ∈ bs, ∀ cc, dictGet ((revoke_connection b now st).2).connections c =
          some cc → nonterminal cc := by
        intro c hc cc hdc
        have hcb : c ≠ b := fun he => hnd.1 (he ▸ hc)
        rw [revoke_dictGet_ne hcb] at hdc
        exact hg c (List.mem_cons_of_mem b hc) cc hdc
      have hda' : dictGet ((revoke_connection b now st).2).connections a = some conn := by
        rw [revoke_dictGet_ne hab]
        exact hda
      exact ih _ hinv' hnd.2 hg' a hmem conn hda'

/-! ### Invariant preservation along operation sequences -/

theorem cleanup_inv (now : Nat) (st : GwState) (h : Inv st) :
    Inv (cleanup_expired_connections now st) := by
  rw [cleanup_eq_revokeAll]
  apply revokeAll_inv _ _ _ h
  · exact h.nodup_keys.sublist ((List.filter_sublist st.connections).map Prod.fst)
  · intro c hc conn hdc
    rw [List.mem_map] at hc
    obtain ⟨x, hx, hfst⟩ := hc
    rw [List.mem_filter] at hx
    have hdx : dictGet st.connections c = some x.2 := by
      rw [← hfst]
      exact dictGet_of_mem_nodup h.nodup_keys (by rw [show (x.1, x.2) = x from rfl]; exact hx.1)
    rw [hdx] at hdc
    cases hdc
    exact is_expired_nonterminal hx.2

theorem startFwd_inv (code : String) (st : GwState) (h : Inv st) :
    Inv (start_port_forwarding code st).2 := by
  unfold start_port_forwarding
  split
  · exact h
  · split
    · exact h
    · exact ⟨h.nodup_keys, h.pools_disjoint, h.port_used, h.ports_distinct⟩

/-- An operation is well-targeted in a state when Approve and Revoke are only
applied to codes that are absent or denote a non-terminal session (the
discipline the spec's `Approve`/`Revoke` contracts impose on success). -/
def goodOp (st : GwState) : Op → Bool
  | .approve code _ => (dictGet st.connections code).all (fun c => decide (nonterminal c))
  | .revoke code _ => (dictGet st.connections code).all (fun c => decide (nonterminal c))
  | _ => true

/-- A sequence of operations is well-targeted when each operation is
well-targeted in the state it executes in. -/
def goodOps (st : GwState) : List Op → Bool
  | [] => true
  | op :: ops => goodOp st op && goodOps (step st op) ops

theorem goodOp_all {o : Option Conn}
    (h : o.all (fun c => decide (nonterminal c)) = true) :
    ∀ c, o = some c → nonterminal c := by
  intro c hc
  subst hc
  simpa using h

theorem step_inv (st : GwState) (op : Op) (h : Inv st) (hg : goodOp st op = true) :
    Inv (step st op) := by
  cases op with
  | create draws ui now => exact create_inv draws ui now st h
  | approve code now => exact approve_inv code now st h (goodOp_all hg)
  | revoke code now => exact revoke_inv code now st h (goodOp_all hg)
  | cleanup now => exact cleanup_inv now st h
  | startFwd code => exact startFwd_inv code st h

theorem run_inv (st : GwState) (ops : List Op) (h : Inv st) (hg : goodOps st ops = true) :
    Inv (run st ops) := by
  induction ops generalizing st with
  | nil => exact h
  | cons op ops ih =>
    unfold goodOps at hg
    rw [Bool.and_eq_true] at hg
    exact ih _ (step_inv st op h hg.1) hg.2

theorem inv_initState (cfg : Config) : Inv (initState cfg) := by
  constructor
  · exact List.nodup_nil
  · intro p _ hp
    exact absurd hp (Finset.not_mem_empty p)
  · intro x hx
    exact absurd hx (List.not_mem_nil x)
  · intro x hx
    exact absurd hx (List.not_mem_nil x)

/-! ### Pool-size invariance (free + used ports) -/

/-- The two port pools are disjoint. -/
def DisjPools (st : GwState) : Prop :=
  ∀ p ∈ st.available_ports, p ∉ st.used_ports

instance (st : GwState) : Decidable (DisjPools st) := by
  unfold DisjPools
  infer_instance

/-- Total number of ports the allocator tracks: free plus used. -/
def poolSize (st : GwState) : Nat :=
  st.available_ports.card + st.used_ports.card

theorem release_pools (p : Nat) (st : GwState) (h : DisjPools st) :
    DisjPools (release_port p st) ∧ poolSize (release_port p st) = poolSize st := by
  unfold release_port
  split
  · rename_i hu
    constructor
    · intro q hq hq2
      rcases Finset.mem_insert.1 hq with he | hm
      · rw [he] at hq2
        exact Finset.not_mem_erase p st.used_ports hq2
      · exact h q hm (Finset.mem_of_mem_erase hq2)
    · have hpa : p ∉ st.available_ports := fun hpa => h p hpa hu
      unfold poolSize
      simp only
      rw [Finset.card_insert_of_not_mem hpa]
      have := Finset.card_erase_add_one hu
      omega
  · exact ⟨h, rfl⟩

theorem allocate_pools (st : GwState) (h : DisjPools st) :
    DisjPools (allocate_port st).2 ∧ poolSize (allocate_port st).2 = poolSize st := by
  unfold allocate_port
  split
  · exact ⟨h, rfl⟩
  · rename_i p hm
    have hp : p ∈ st.available_ports := Finset.mem_of_min hm
    constructor
    · intro q hq hq2
      rw [Finset.mem_erase] at hq
      rcases Finset.mem_insert.1 hq2 with he | hmm
      · exact hq.1 he
      · exact h q hq.2 hmm
    · have hpu : p ∉ st.used_ports := h p hp
      unfold poolSize
      simp only
      rw [Finset.card_insert_of_not_mem hpu]
      have := Finset.card_erase_add_one hp
      omega

theorem create_pools (draws : List String) (ui : String) (now : Nat) (st : GwState)
    (h : DisjPools st) :
    DisjPools (create_connection draws ui now st).2 ∧
      poolSize (create_connection draws ui now st).2 = poolSize st := by
  unfold create_connection
  split
  · exact ⟨h, rfl⟩
  · split
    · rename_i st1 ha
      rw [allocate_port_none ha]
      exact ⟨h, rfl⟩
    · rename_i p st1 ha
      have := allocate_pools st h
      rw [ha] at this
      split
      · exact this
      · exact this

theorem approve_pools (code : String) (now : Nat) (st : GwState) (h : DisjPools st) :
    DisjPools (approve_connection code now st).2 ∧
      poolSize (approve_connection code now st).2 = poolSize st := by
  unfold approve_connection
  split
  · exact ⟨h, rfl⟩
  · exact ⟨h, rfl⟩

theorem revoke_pools (code : String) (now : Nat) (st : GwState) (h : DisjPools st) :
    DisjPools (revoke_connection code now st).2 ∧
      poolSize (revoke_connection code now st).2 = poolSize st := by
  unfold revoke_connection
  split
  · exact ⟨h, rfl⟩
  · rename_i conn hd
    have := release_pools conn.port st h
    exact this

theorem revokeAll_pools (codes : List String) (now : Nat) (st : GwState) (h : DisjPools st) :
    DisjPools (revokeAll codes now st) ∧ poolSize (revokeAll codes now st) = poolSize st := by
  induction codes generalizing st with
  | nil => exact ⟨h, rfl⟩
  | cons b bs ih =>
    rw [revokeAll_cons]
    obtain ⟨h1, h2⟩ := revoke_pools b now st h
    obtain ⟨h3, h4⟩ := ih _ h1
    exact ⟨h3, h4.trans h2⟩

theorem startFwd_pools (code : String) (st : GwState) (h : DisjPools st) :
    DisjPools (start_port_forwarding code st).2 ∧
      poolSize (start_port_forwarding code st).2 = poolSize st := by
  unfold start_port_forwarding
  split
  · exact ⟨h, rfl⟩
  · split
    · exact ⟨h, rfl⟩
    · exact ⟨h, rfl⟩

theorem step_pools (st : GwState) (op : Op) (h : DisjPools st) :
    DisjPools (step st op) ∧ poolSize (step st op) = poolSize st := by
  cases op with
  | create draws ui now => exact create_pools draws ui now st h
  | approve code now => exact approve_pools code now st h
  | revoke code now => exact revoke_pools code now st h
  | cleanup now =>
    rw [show step st (Op.cleanup now) = cleanup_expired_connections now st from rfl,
      cleanup_eq_revokeAll]
    exact revokeAll_pools _ now st h
  | startFwd code => exact startFwd_pools code st h

theorem run_pools (st : GwState) (ops : List Op) (h : DisjPools st) :
    DisjPools (run st ops) ∧ poolSize (run st ops) = poolSize st := by
  induction ops generalizing st with
  | nil => exact ⟨h, rfl⟩
  | cons op ops ih =>
    obtain ⟨h1, h2⟩ := step_pools st op h
    obtain ⟨h3, h4⟩ := ih _ h1
    exact ⟨h3, h4.trans h2⟩

/-! ### Concrete fixtures for witnesses and counterexamples -/

def testConfig : Config :=
  { connection_timeout := 10, require_approval := true, minecraft_port := 25565 }

/-- A broker state with a free pool of exactly one port, 31000. -/
def onePortState : GwState :=
  { connections := []
    connection_ports := []
    available_ports := {31000}
    used_ports := ∅
    config := testConfig
    forwarding_threads := []
    spawned := []
    next_thread := 0 }

/-- A broker state with a free pool of two ports. -/
def twoPortState : GwState :=
  { onePortState with available_ports := {31000, 31001} }

/-- Create session AAAA, revoke it, create BBBB (which reuses port 31000),
revoke AAAA *again* (which frees BBBB's port), create CCCC. -/
def c1Trace : List Op :=
  [ .create ["AAAA"] "u" 0, .revoke "AAAA" 1, .create ["BBBB"] "u" 2,
    .revoke "AAAA" 3, .create ["CCCC"] "u" 4 ]

/-- C1 counterexample: the claim is false for unrestricted operation
sequences.  After `c1Trace` — whose only operations are CreateSession and
Revoke — sessions BBBB and CCCC are both `"pending"` and both hold port
31000, because the second revoke of the already-revoked AAAA released BBBB's
port back to the pool (`revoke_connection` never checks the current status,
and `release_port` happily moves any port that is in `used_ports`). -/
theorem c1_counterexample :
    (dictGet (run onePortState c1Trace).connections "BBBB").map
        (fun c => (c.status, c.port)) = some ("pending", 31000) ∧
    (dictGet (run onePortState c1Trace).connections "CCCC").map
        (fun c => (c.status, c.port)) = some ("pending", 31000) ∧
    ¬ PortsDistinct (run onePortState c1Trace) := by
  refine ⟨by decide, by decide, ?_⟩
  decide

/-- C1 (amended): starting from the `__init__` state, for every sequence of
CreateSession, Approve, Revoke, reaper-cleanup and StartForwarding operations
in which Approve and Revoke are only ever applied to codes that are unknown
or denote a non-terminal (pending or active) session, no two non-terminal
sessions ever hold the same port.  (The restriction is forced by
`c1_counterexample`: a Revoke or Approve of an already-terminal session
breaks the invariant.) -/
theorem c1_ports_distinct (cfg : Config) (ops : List Op)
    (hg : goodOps (initState cfg) ops = true) :
    PortsDistinct (run (initState cfg) ops) :=
  (run_inv (initState cfg) ops (inv_initState cfg) hg).ports_distinct

/-- Witness for `c1_ports_distinct` at a concrete well-targeted trace. -/
theorem c1_ports_distinct_witness :
    goodOps (initState testConfig) [Op.create ["AAAA"] "u" 0, Op.cleanup 20] = true ∧
    PortsDistinct (run (initState testConfig) [Op.create ["AAAA"] "u" 0, Op.cleanup 20]) :=
  ⟨rfl, c1_ports_distinct testConfig [Op.create ["AAAA"] "u" 0, Op.cleanup 20] rfl⟩

/-- State in which session AAAA exists and has been revoked. -/
def revokedAAAAState : GwState :=
  run onePortState [.create ["AAAA"] "u" 0, .revoke "AAAA" 1]

/-- C2 counterexample: approving the already-revoked session AAAA does not
return a NotFound/InvalidTransition error — `approve_connection` checks only
key membership, returns `True` and resurrects the session to `"active"`. -/
theorem c2_counterexample :
    (dictGet revokedAAAAState.connections "AAAA").map (fun c => c.status) =
      some "revoked" ∧
    (approve_connection "AAAA" 2 revokedAAAAState).1 = true ∧
    (dictGet ((approve_connection "AAAA" 2 revokedAAAAState).2).connections "AAAA").map
        (fun c => c.status) = some "active" := by
  refine ⟨by decide, by decide, ?_⟩
  decide

/-- C2 (amended): Approve succeeds iff the code is a key of the session map,
*regardless* of the session's current state — it unconditionally sets status
`"active"` and `approvedAt`; an unknown code returns the failure value
`False` (there is no separate InvalidTransition outcome, and approving an
Active, Revoked or Expired session succeeds rather than erroring). -/
theorem c2_approve_spec (st : GwState) (code : String) (now : Nat) :
    (dictGet st.connections code = none → approve_connection code now st = (false, st)) ∧
    (∀ conn, dictGet st.connections code = some conn →
      (approve_connection code now st).1 = true ∧
      dictGet ((approve_connection code now st).2).connections code =
        some { conn with status := "active", approved_at := some now }) := by
  constructor
  · intro hd
    unfold approve_connection
    rw [hd]
  · intro conn hd
    unfold approve_connection
    rw [hd]
    exact ⟨rfl, dictGet_dictSet_self st.connections code _⟩

/-- Witness for `c2_approve_spec`: applying it to the revoked session AAAA. -/
theorem c2_approve_spec_witness :
    (approve_connection "AAAA" 2 revokedAAAAState).1 = true :=
  ((c2_approve_spec revokedAAAAState "AAAA" 2).2
    { code := "AAAA", port := 31000, status := "revoked", created_at := 0,
      expires_at := 10, user_info := "u",
      stats := { bytes_forwarded := 0, connections := 0, last_activity := 0 },
      approved_at := none, revoked_at := some 1 }
    (by decide)).1

theorem revoke_fst_of_some {st : GwState} {code : String} {now : Nat} {conn : Conn}
    (hd : dictGet st.connections code = some conn) :
    (revoke_connection code now st).1 = true := by
  unfold revoke_connection
  rw [hd]

/-- State in which session AAAA exists and is pending. -/
def pendingAAAAState : GwState := run onePortState [.create ["AAAA"] "u" 0]

/-- C3 counterexample: `RevokeSession` called twice on the same code — the
second call also returns `True` (success) instead of the InvalidTransition
failure the claim requires, because `revoke_connection` never inspects the
current status. -/
theorem c3_counterexample :
    (revoke_connection "AAAA" 1 pendingAAAAState).1 = true ∧
    (revoke_connection "AAAA" 2 (revoke_connection "AAAA" 1 pendingAAAAState).2).1 =
      true := by
  refine ⟨by decide, ?_⟩
  decide

/-- C3 (amended): Revoke succeeds iff the code is a key of the session map,
regardless of the session's current state; in particular calling
RevokeSession twice on the same code makes *both* calls succeed (the second
silently re-revokes; the free pool is protected only by `release_port`'s
membership guard, not by any transition check). -/
theorem c3_revoke_spec (st : GwState) (code : String) (now now' : Nat) :
    (dictGet st.connections code = none → revoke_connection code now st = (false, st)) ∧
    (∀ conn, dictGet st.connections code = some conn →
      (revoke_connection code now st).1 = true ∧
      dictGet ((revoke_connection code now st).2).connections code =
        some { conn with status := "revoked", revoked_at := some now } ∧
      (revoke_connection code now' ((revoke_connection code now st).2)).1 = true) := by
  constructor
  · intro hd
    unfold revoke_connection
    rw [hd]
  · intro conn hd
    refine ⟨revoke_fst_of_some hd, revoke_dictGet_self hd, ?_⟩
    exact revoke_fst_of_some (revoke_dictGet_self hd)

/-- Witness for `c3_revoke_spec`: applying it to the pending session AAAA. -/
theorem c3_revoke_spec_witness :
    (revoke_connection "AAAA" 1 pendingAAAAState).1 = true ∧
    (revoke_connection "AAAA" 2 ((revoke_connection "AAAA" 1 pendingAAAAState).2)).1 =
      true := by
  have h := (c3_revoke_spec pendingAAAAState "AAAA" 1 2).2
    { code := "AAAA", port := 31000, status := "pending", created_at := 0,
      expires_at := 10, user_info := "u",
      stats := { bytes_forwarded := 0, connections := 0, last_activity := 0 },
      approved_at := none, revoked_at := none }
    (by decide)
  exact ⟨h.1, h.2.2⟩

/-- C4 counterexample: releasing port 31000 a second time — after the
create/revoke cycle has already returned it to the free pool — is silently
ignored: the call returns with the state completely unchanged, and no
ErrInvalidRelease (or any other error) exists anywhere in `release_port`. -/
theorem c4_counterexample :
    (31000 : Nat) ∉ revokedAAAAState.used_ports ∧
    release_port 31000 revokedAAAAState = revokedAAAAState := by
  refine ⟨by decide, ?_⟩
  decide

/-- C4 (amended): calling `release_port` on a port that is not currently
allocated (not in `used_ports`) is a silent no-op — the state is returned
unchanged (so the pool is not corrupted), but no error of any kind is
signalled. -/
theorem c4_release_noop (st : GwState) (port : Nat) (h : port ∉ st.used_ports) :
    release_port port st = st := by
  unfold release_port
  rw [if_neg h]

/-- Witness for `c4_release_noop` at the double-release of port 31000. -/
theorem c4_release_noop_witness :
    release_port 31000 revokedAAAAState = revokedAAAAState :=
  c4_release_noop revokedAAAAState 31000 (by decide)

/-! ### C5: the reaper -/

theorem cleanup_codes_nodup (now : Nat) (st : GwState) (h : Inv st) :
    ((st.connections.filter (fun p => is_expired now p.2)).map Prod.fst).Nodup :=
  h.nodup_keys.sublist ((List.filter_sublist st.connections).map Prod.fst)

theorem cleanup_codes_good (now : Nat) (st : GwState) (h : Inv st) :
    ∀ c ∈ (st.connections.filter (fun p => is_expired now p.2)).map Prod.fst,
      ∀ conn, dictGet st.connections c = some conn → nonterminal conn := by
  intro c hc conn hdc
  rw [List.mem_map] at hc
  obtain ⟨x, hx, hfst⟩ := hc
  rw [List.mem_filter] at hx
  have hdx : dictGet st.connections c = some x.2 := by
    rw [← hfst]
    exact dictGet_of_mem_nodup h.nodup_keys hx.1
  rw [hdx] at hdc
  cases hdc
  exact is_expired_nonterminal hx.2

theorem nonterminal_is_expired {now : Nat} {c : Conn} (hnt : nonterminal c)
    (hexp : c.expires_at < now) : is_expired now c = true := by
  unfold is_expired
  unfold nonterminal at hnt
  simp only [Bool.and_eq_true, decide_eq_true_eq, Bool.or_eq_true, beq_iff_eq]
  exact ⟨hexp, hnt⟩

theorem mem_cleanup_codes {now : Nat} {st : GwState} {x : String × Conn}
    (hx : x ∈ st.connections) (hnt : nonterminal x.2) (hexp : x.2.expires_at < now) :
    x.1 ∈ (st.connections.filter (fun p => is_expired now p.2)).map Prod.fst :=
  List.mem_map_of_mem Prod.fst (List.mem_filter.2 ⟨hx, nonterminal_is_expired hnt hexp⟩)

theorem not_mem_cleanup_codes {now : Nat} {st : GwState} {x : String × Conn} (h : Inv st)
    (hx : x ∈ st.connections) (hle : now ≤ x.2.expires_at) :
    x.1 ∉ (st.connections.filter (fun p => is_expired now p.2)).map Prod.fst := by
  intro hmem
  rw [List.mem_map] at hmem
  obtain ⟨y, hy, hfst⟩ := hmem
  rw [List.mem_filter] at hy
  have h1 : dictGet st.connections x.1 = some x.2 :=
    dictGet_of_mem_nodup h.nodup_keys hx
  have h2 : dictGet st.connections x.1 = some y.2 := by
    rw [← hfst]
    exact dictGet_of_mem_nodup h.nodup_keys hy.1
  rw [h1] at h2
  have he : x.2 = y.2 := Option.some.inj h2
  have hexp := hy.2
  rw [← he] at hexp
  unfold is_expired at hexp
  simp only [Bool.and_eq_true, decide_eq_true_eq] at hexp
  omega

/-- State with AAAA expiring at 10 and BBBB expiring at 12. -/
def c5CexState : GwState :=
  run twoPortState [.create ["AAAA"] "u" 0, .create ["BBBB"] "u" 2]

/-- C5 counterexample: running the reaper at `now = 12` (i) moves the
strictly-expired session AAAA to status `"revoked"`, not the `"expired"`
status the claim names — no `"expired"` status exists anywhere in the code,
since `cleanup_expired_connections` simply calls `revoke_connection` — and
(ii) leaves session BBBB, whose `expires_at` equals `now` (the claim's
"at or before the current time"), untouched as `"pending"`, because the
code's condition is the strict `now > expires_at`. -/
theorem c5_counterexample :
    (dictGet c5CexState.connections "AAAA").map (fun c => c.expires_at) = some 10 ∧
    (dictGet c5CexState.connections "BBBB").map (fun c => c.expires_at) = some 12 ∧
    (dictGet (cleanup_expired_connections 12 c5CexState).connections "AAAA").map
        (fun c => c.status) = some "revoked" ∧
    (dictGet (cleanup_expired_connections 12 c5CexState).connections "BBBB").map
        (fun c => c.status) = some "pending" := by
  refine ⟨by decide, by decide, ?_, ?_⟩
  · decide
  · decide

/-- C5 (amended): on each reaper tick, every pending/active session whose
`expires_at` is *strictly before* `now` is transitioned to the terminal
status `"revoked"` (the code reuses `revoke_connection`; there is no distinct
Expired state) with `revoked_at = now` and its port released back to the free
pool; sessions with `expires_at ≥ now` are left untouched; and the
forwarding-threads map is never modified (the "stop forwarding" branch of
`revoke_connection` is a literal `pass`). -/
theorem c5_cleanup_spec (now : Nat) (st : GwState) (h : Inv st) :
    (∀ x ∈ st.connections, nonterminal x.2 → x.2.expires_at < now →
      dictGet (cleanup_expired_connections now st).connections x.1 =
        some { x.2 with status := "revoked", revoked_at := some now } ∧
      x.2.port ∈ (cleanup_expired_connections now st).available_ports) ∧
    (∀ x ∈ st.connections, now ≤ x.2.expires_at →
      dictGet (cleanup_expired_connections now st).connections x.1 =
        dictGet st.connections x.1) ∧
    (cleanup_expired_connections now st).forwarding_threads =
      st.forwarding_threads := by
  rw [cleanup_eq_revokeAll]
  refine ⟨?_, ?_, revokeAll_forwarding _ now st⟩
  · intro x hx hnt hexp
    have hda : dictGet st.connections x.1 = some x.2 :=
      dictGet_of_mem_nodup h.nodup_keys hx
    exact revokeAll_spec _ now st h (cleanup_codes_nodup now st h)
      (cleanup_codes_good now st h) x.1 (mem_cleanup_codes hx hnt hexp) x.2 hda
  · intro x hx hle
    exact revokeAll_dictGet_not_mem _ now st (not_mem_cleanup_codes h hx hle)

/-- A single pending session holding port 31000, for the C5 witness. -/
def c5wConn : Conn :=
  { code := "AAAA", port := 31000, status := "pending", created_at := 0,
    expires_at := 10, user_info := "u",
    stats := { bytes_forwarded := 0, connections := 0, last_activity := 0 } }

def c5wState : GwState :=
  { connections := [("AAAA", c5wConn)]
    connection_ports := [(31000, "AAAA")]
    available_ports := ∅
    used_ports := {31000}
    config := testConfig
    forwarding_threads := []
    spawned := []
    next_thread := 0 }

/-- Witness for `c5_cleanup_spec` at a concrete expired session. -/
theorem c5_cleanup_spec_witness :
    dictGet (cleanup_expired_connections 12 c5wState).connections "AAAA" =
      some { c5wConn with status := "revoked", revoked_at := some 12 } ∧
    c5wConn.port ∈ (cleanup_expired_connections 12 c5wState).available_ports :=
  (c5_cleanup_spec 12 c5wState ⟨by decide, by decide, by decide, by decide⟩).1
    ("AAAA", c5wConn) (by decide) (by decide) (by decide)

/-! ### C6: pool exhaustion leaves the registry untouched -/

/-- C6 (confirmed): when the free pool is empty, `create_connection` returns
the failure value (`None` in the source — the model of the PoolExhausted
outcome, logged as "No available ports") and the state is returned *exactly*
as it was: in particular the session map `connections` and the code set (its
keys) are unchanged, as are `connection_ports` and both port pools. -/
theorem c6_create_pool_exhausted (draws : List String) (ui : String) (now : Nat)
    (st : GwState) (h : st.available_ports = ∅) :
    create_connection draws ui now st = (none, st) := by
  have halloc : allocate_port st = (none, st) := by
    unfold allocate_port
    rw [h]
    rfl
  unfold create_connection
  split
  · rfl
  · rw [halloc]

/-- A state whose single port is already in use, so the free pool is empty. -/
def exhaustedState : GwState := run onePortState [.create ["AAAA"] "u" 0]

/-- Witness for `c6_create_pool_exhausted`: the second CreateSession against
a pool of exactly one port fails and changes nothing. -/
theorem c6_create_pool_exhausted_witness :
    create_connection ["BBBB"] "u" 1 exhaustedState = (none, exhaustedState) :=
  c6_create_pool_exhausted ["BBBB"] "u" 1 exhaustedState (by decide)

/-! ### C7: StartForwarding is not idempotent -/

/-- State with the approved (active) session AAAA on port 31000. -/
def activeAAAAState : GwState :=
  run onePortState [.create ["AAAA"] "u" 0, .approve "AAAA" 1]

/-- C7 counterexample: calling `start_port_forwarding` twice on the same
Active session is *not* a no-op: the second call also returns `True` and
spawns a second forwarding thread whose listener targets the same port 31000
(thread ids 0 and 1 in the spawn log), replacing the tracked handle — there
is no check that forwarding is already running. -/
theorem c7_counterexample :
    (start_port_forwarding "AAAA" activeAAAAState).1 = true ∧
    (start_port_forwarding "AAAA"
        (start_port_forwarding "AAAA" activeAAAAState).2).1 = true ∧
    ((start_port_forwarding "AAAA"
        (start_port_forwarding "AAAA" activeAAAAState).2).2).spawned =
      [(0, 31000), (1, 31000)] := by
  refine ⟨by decide, by decide, ?_⟩
  decide

/-- C7 (amended): `start_port_forwarding` on an unknown code or a
non-`"active"` session returns the failure value `False` with the state
unchanged; on an `"active"` session it *always* spawns a fresh forwarding
thread listening on the session's port — so a second call spawns a second
thread for the same port (at the OS level that thread's bind then fails and
the thread dies after logging, but the operation is not the no-op the spec
asks for, and the tracked thread handle is overwritten). -/
theorem c7_start_forwarding_spec (st : GwState) (code : String) :
    (dictGet st.connections code = none → start_port_forwarding code st = (false, st)) ∧
    (∀ conn, dictGet st.connections code = some conn → conn.status ≠ "active" →
      start_port_forwarding code st = (false, st)) ∧
    (∀ conn, dictGet st.connections code = some conn → conn.status = "active" →
      (start_port_forwarding code st).1 = true ∧
      ((start_port_forwarding code st).2).spawned =
        st.spawned ++ [(st.next_thread, conn.port)] ∧
      ((start_port_forwarding code ((start_port_forwarding code st).2)).2).spawned =
        st.spawned ++ [(st.next_thread, conn.port), (st.next_thread + 1, conn.port)]) := by
  refine ⟨?_, ?_, ?_⟩
  · intro hd
    unfold start_port_forwarding
    rw [hd]
  · intro conn hd hs
    unfold start_port_forwarding
    rw [hd]
    simp only [if_pos hs]
  · intro conn hd hs
    have h1 : start_port_forwarding code st =
        (true,
          { st with
              forwarding_threads := dictSet st.forwarding_threads conn.port st.next_thread
              spawned := st.spawned ++ [(st.next_thread, conn.port)]
              next_thread := st.next_thread + 1 }) := by
      unfold start_port_forwarding
      simp only [hd]
      rw [if_neg (not_not_intro hs)]
    rw [h1]
    refine ⟨rfl, rfl, ?_⟩
    have h2 : start_port_forwarding code
        ({ st with
            forwarding_threads := dictSet st.forwarding_threads conn.port st.next_thread
            spawned := st.spawned ++ [(st.next_thread, conn.port)]
            next_thread := st.next_thread + 1 } : GwState) =
        (true,
          { st with
              forwarding_threads :=
                dictSet (dictSet st.forwarding_threads conn.port st.next_thread)
                  conn.port (st.next_thread + 1)
              spawned := (st.spawned ++ [(st.next_thread, conn.port)]) ++
                [(st.next_thread + 1, conn.port)]
              next_thread := st.next_thread + 1 + 1 }) := by
      unfold start_port_forwarding
      simp only [hd]
      rw [if_neg (not_not_intro hs)]
    rw [h2]
    simp [List.append_assoc]

/-- Witness for `c7_start_forwarding_spec` at the active session AAAA. -/
theorem c7_start_forwarding_spec_witness :
    (start_port_forwarding "AAAA" activeAAAAState).1 = true :=
  (((c7_start_forwarding_spec activeAAAAState "AAAA").2.2)
    { code := "AAAA", port := 31000, status := "active", created_at := 0,
      expires_at := 10, user_info := "u",
      stats := { bytes_forwarded := 0, connections := 0, last_activity := 0 },
      approved_at := some 1, revoked_at := none }
    (by decide) (by decide)).1

/-! ### C8: port reuse and pool-size invariance -/

/-- C8 (confirmed): (i) across *any* sequence of broker operations the total
pool size — free ports plus used ports — is invariant (given only that the
two pools start disjoint, as in `__init__`); (ii) revoking a session whose
port is allocated puts that port back into the free pool; (iii) a subsequent
CreateSession can return exactly that port: with the free pool holding the
single port `p`, allocation hands out `p` again. -/
theorem c8_port_reuse_and_pool_invariant (st : GwState) (ops : List Op)
    (h : DisjPools st) :
    (poolSize (run st ops) = poolSize st ∧ DisjPools (run st ops)) ∧
    (∀ code conn now, dictGet st.connections code = some conn →
      conn.port ∈ st.used_ports →
      conn.port ∈ ((revoke_connection code now st).2).available_ports) ∧
    (∀ p draws ui now code, p ≠ 0 → st.available_ports = {p} →
      generate_connection_code draws st.connections = some code →
      ∃ c, (create_connection draws ui now st).1 = some c ∧ c.port = p) := by
  refine ⟨⟨(run_pools st ops h).2, (run_pools st ops h).1⟩, ?_, ?_⟩
  · intro code conn now hd hu
    exact revoke_port_released hd hu
  · intro p draws ui now code hp0 hsing hg
    have halloc : allocate_port st =
        (some p,
          { st with
              available_ports := st.available_ports.erase p
              used_ports := insert p st.used_ports }) := by
      unfold allocate_port
      rw [hsing, Finset.min_singleton]
    unfold create_connection
    simp only [hg, halloc, if_neg hp0]
    exact ⟨_, rfl, rfl⟩

/-- A create/revoke/create cycle on the one-port pool: the port comes back. -/
def c8Trace : List Op :=
  [.create ["AAAA"] "u" 0, .revoke "AAAA" 1, .create ["BBBB"] "u" 2]

/-- Witness for `c8_port_reuse_and_pool_invariant`: pool size is preserved
across the cycle, and the recycled singleton pool hands out port 31000
again. -/
theorem c8_port_reuse_and_pool_invariant_witness :
    poolSize (run onePortState c8Trace) = poolSize onePortState ∧
    (∃ c, (create_connection ["AAAA"] "u" 0 onePortState).1 = some c ∧
      c.port = 31000) :=
  ⟨((c8_port_reuse_and_pool_invariant onePortState c8Trace (by decide)).1).1,
    (c8_port_reuse_and_pool_invariant onePortState c8Trace (by decide)).2.2
      31000 ["AAAA"] "u" 0 "AAAA" (by decide) (by decide) (by decide)⟩

/-! ### C9: code generation retries without bound -/

def c9Conn : Conn :=
  { code := "AA", port := 31000, status := "pending", created_at := 0,
    expires_at := 10, user_info := "u",
    stats := { bytes_forwarded := 0, connections := 0, last_activity := 0 } }

/-- A registry whose only key "AA" collides with every draw below. -/
def c9Conns : List (String × Conn) := [("AA", c9Conn)]

/-- C9 counterexample: one hundred consecutive colliding draws later, the
`while True` loop of `generate_connection_code` still has not returned — and
the source contains no retry bound and no CodeSpaceExhausted error value at
all: the loop simply spins for as long as the draws collide (together with
`c9_generate_spec`, which shows the loop fails to return within *any* draw
budget whose draws all collide). -/
theorem c9_counterexample :
    generate_connection_code (List.replicate 100 "AA") c9Conns = none := by
  decide

/-- C9 (amended): `generate_connection_code` retries *without bound*: it
returns precisely the first random draw that misses the current code set, and
for any number of iterations it has produced no result exactly when every
draw so far collided — persistent collision makes the loop spin forever;
no `CodeSpaceExhausted` (or any other) error is ever reported. -/
theorem c9_generate_spec (draws : List String) (conns : List (String × Conn)) :
    (∀ code, generate_connection_code draws conns = some code →
      dictGet conns code = none ∧ code ∈ draws) ∧
    (generate_connection_code draws conns = none ↔
      ∀ c ∈ draws, (dictGet conns c).isSome) := by
  constructor
  · intro code hc
    have h1 := List.find?_some hc
    have h2 := List.mem_of_find?_eq_some hc
    rw [Option.isNone_iff_eq_none] at h1
    exact ⟨h1, h2⟩
  · unfold generate_connection_code
    rw [List.find?_eq_none]
    constructor
    · intro h c hcm
      cases hdc : dictGet conns c with
      | none =>
        have := h c hcm
        rw [hdc] at this
        simp at this
      | some v => rfl
    · intro h c hcm
      have := h c hcm
      cases hdc : dictGet conns c with
      | none => rw [hdc] at this; simp at this
      | some v => simp

/-- Witness for `c9_generate_spec`: with draws ["AA", "BB"] against the
registry holding "AA", the loop returns "BB", which indeed misses the code
set. -/
theorem c9_generate_spec_witness :
    dictGet c9Conns "BB" = none ∧ "BB" ∈ ["AA", "BB"] :=
  (c9_generate_spec ["AA", "BB"] c9Conns).1 "BB" (by decide)

/-! ### C10: quick-join restores the approval flag -/

theorem create_config (draws : List String) (ui : String) (now : Nat) (st : GwState) :
    ((create_connection draws ui now st).2).config = st.config := by
  unfold create_connection
  split
  · rfl
  · split
    · rename_i st1 ha
      rw [allocate_port_none ha]
    · rename_i p st1 ha
      obtain ⟨-, hst1⟩ := allocate_port_some ha
      subst hst1
      split
      · rfl
      · rfl

theorem approve_config (code : String) (now : Nat) (st : GwState) :
    ((approve_connection code now st).2).config = st.config := by
  unfold approve_connection
  split <;> rfl

theorem startFwd_config (code : String) (st : GwState) :
    ((start_port_forwarding code st).2).config = st.config := by
  unfold start_port_forwarding
  split
  · rfl
  · split <;> rfl

theorem config_restore (c : Config) (b : Bool) :
    ({ { c with require_approval := b } with
        require_approval := c.require_approval } : Config) = c := by
  cases c
  rfl

/-- C10 (confirmed): `quick_join` temporarily forces `require_approval` to
`False` and, in its `finally` block, restores the flag to its original value
on both the success path (session created, approved and forwarding started)
and the failure path (`create_connection` returned the failure value) — so
the whole configuration observed after the call equals the configuration
observed before it. -/
theorem c10_quick_join_preserves_config (draws : List String) (now : Nat) (st : GwState) :
    ((quick_join draws now st).2).config = st.config := by
  unfold quick_join
  dsimp only
  split
  · rename_i st1 heq
    have hsnd : (create_connection draws "Quick Join User" now
        { st with config := { st.config with require_approval := false } }).2 = st1 := by
      rw [heq]
    have hc1 : st1.config = { st.config with require_approval := false } := by
      rw [← hsnd]
      exact create_config _ _ _ _
    dsimp only
    rw [hc1]
    try exact config_restore st.config false
  · rename_i conn st1 heq
    have hsnd : (create_connection draws "Quick Join User" now
        { st with config := { st.config with require_approval := false } }).2 = st1 := by
      rw [heq]
    have hc1 : st1.config = { st.config with require_approval := false } := by
      rw [← hsnd]
      exact create_config _ _ _ _
    dsimp only
    rw [startFwd_config, approve_config, hc1]
    try exact config_restore st.config false

end Gateway
